import Mathlib

/-!
# azure-logging-shipper: batching, shipping and signing

A shallow embedding of the Go sources

* `internal/pkg/logshipper/azure.go`  (`SendLog`, `createAuthHeader`),
* `internal/pkg/batcher/batcher.go`   (`NewBatcher`, `startIntervalFlusher`,
  `AddToBatch`, `FlushBatch`, `flush`),
* `internal/pkg/rabbit/consumer.go`   (`handle`),

followed by the theorems that settle the claims C1 .. C10.

Modelling conventions.

* Go `[]byte` is `List UInt8`, Go `string` is `String`, Go `int` is `Int`
  (no arithmetic of the modelled code can overflow: the only operations on
  `int` are comparisons, `len` and `maxLen - 1`).
* `time.Time` and `time.Duration` are integers counting nanoseconds;
  `Time.Sub` saturates at the 64-bit bounds as the Go library does.
* Functions of the Go standard library and of the AMQP/HTTP stack are not part
  of the repository.  They are the fields of `Lib`; every theorem quantifies
  over all of them.
* A goroutine started with `go f(x)` is recorded, in start order, in the world
  state; the calls of one goroutine of the source loop are sequential.
* The effects of `flush` (the `SendLog` call, `Ack`, `Reject`) are recorded in
  program order in a trace.  The Prometheus counters hold integral values and
  are natural numbers here.  `fmt.Printf` and `log.Printf` output is not
  recorded.
-/

namespace AzureLogging

/-! ## Basic data -/

/-- Go byte slices. -/
abbrev Bytes := List UInt8

/-- Go `error` values, identified by their message. -/
structure GoError where
  msg : String
deriving DecidableEq, Repr

/-- Nanoseconds since some epoch: `time.Time`. -/
abbrev Time := Int

/-- Nanoseconds: `time.Duration` (an `int64` in Go). -/
abbrev Duration := Int

/-- The record `amqp.Delivery`: the fields the program reads. `DeliveryTag`
identifies the message on its channel; `Ack` and `Reject` act on it. -/
structure Delivery where
  DeliveryTag : Nat
  Body : Bytes
deriving DecidableEq, Repr

/-- The struct `http.Response`: the field the program reads. -/
structure Response where
  StatusCode : Int
deriving DecidableEq, Repr

/-- The Go standard library functions the shipper calls. `Req` is the type of
`*http.Request`, `URL` the type of `*url.URL`. -/
structure Lib where
  Req : Type
  URL : Type
  /-- The call `base64.StdEncoding.DecodeString`. -/
  DecodeString : String → Except GoError Bytes
  /-- The call `base64.StdEncoding.EncodeToString`. -/
  EncodeToString : Bytes → String
  /-- The calls `h := hmac.New(sha256.New, key); h.Write([]byte(msg)); h.Sum(nil)`. -/
  hmacSha256 : Bytes → String → Bytes
  /-- The call `http.NewRequest(method, url, body)`. -/
  NewRequest : String → String → Bytes → Except GoError Req
  /-- The call `req.Header.Add(key, value)`. -/
  HeaderAdd : Req → String → String → Req
  /-- The calls `q := req.URL.Query(); q.Add(key, value); req.URL.RawQuery = q.Encode()`. -/
  QueryAdd : Req → String → String → Req
  /-- The call `url.Parse`. -/
  Parse : String → Except GoError URL
  /-- The value of `time.Now().UTC().Format(time.RFC1123)` at the call. -/
  nowRFC1123 : String
  /-- The call `strings.Replace(s, old, new, n)`. -/
  Replace : String → String → String → Int → String
  /-- The call `client.Do(req)`: `none` is `http.DefaultClient`, `some u` the
  client whose transport uses the proxy `u`. -/
  Do : Option URL → Req → Except GoError Response

/-! ## `logshipper/azure.go` -/

/-- The struct `AzureLogShipper`. -/
structure AzureLogShipper where
  WorkspaceID : String
  SharedKey : String
  HttpProxy : String
deriving DecidableEq, Repr

/-- The verb `%v` of `fmt` applied to an `int`: signed decimal. -/
def fmtInt (n : Int) : String := toString n

/-- The method `AzureLogShipper.createAuthHeader`. -/
def createAuthHeader (lib : Lib) (a : AzureLogShipper) (length : Int)
    (dateString : String) : Except GoError String :=
  let stringToHash :=
    "POST\n" ++ fmtInt length ++ "\napplication/json\nx-ms-date:" ++ dateString ++ "\n/api/logs"
  match lib.DecodeString a.SharedKey with
  | .error err => .error err
  | .ok encodedKey =>
    let hash := lib.hmacSha256 encodedKey stringToHash
    let sha := lib.EncodeToString hash
    let authHeader := "SharedKey " ++ a.WorkspaceID ++ ":" ++ sha
    .ok authHeader

/-- The value `fmt.Errorf("Error sending log file, got status code %v", s)`. -/
def statusError (s : Int) : GoError :=
  ⟨"Error sending log file, got status code " ++ fmtInt s⟩

/-- The method `AzureLogShipper.SendLog`; `none` is the `nil` error. -/
def SendLog (lib : Lib) (a : AzureLogShipper) (logType : String) (length : Int)
    (body : Bytes) : Option GoError :=
  let azureUrl := "https://" ++ a.WorkspaceID ++ ".ods.opinsights.azure.com/api/logs"
  match lib.NewRequest "POST" azureUrl body with
  | .error err => some err
  | .ok req =>
    let dateString := lib.Replace lib.nowRFC1123 "UTC" "GMT" 1
    match createAuthHeader lib a length dateString with
    | .error err => some err
    | .ok authHeader =>
      let req := lib.HeaderAdd req "Log-Type" logType
      let req := lib.HeaderAdd req "Content-Type" "application/json"
      let req := lib.HeaderAdd req "x-ms-date" dateString
      let req := lib.HeaderAdd req "Authorization" authHeader
      let req := lib.QueryAdd req "api-version" "2016-04-01"
      let client : Except GoError (Option lib.URL) :=
        if a.HttpProxy ≠ "" then
          match lib.Parse "http://localhost:62269" with
          | .error err => .error err
          | .ok proxyURL => .ok (some proxyURL)
        else .ok none
      match client with
      | .error err => some err
      | .ok client =>
        match lib.Do client req with
        | .error err => some err
        | .ok res =>
          if res.StatusCode ≠ 200 then some (statusError res.StatusCode)
          else none

/-! ## `batcher/batcher.go` -/

/-- The package-level Prometheus counters of `batcher`. -/
structure Metrics where
  TotalBatchCounter : Nat
  SuccessBatchCounter : Nat
  FailedBatchCounter : Nat
  TotalCounter : Nat
  SuccessCounter : Nat
  FailedCounter : Nat
deriving DecidableEq, Repr

/-- What one run of `flush` does to the outside, in program order. -/
inductive Effect where
  | sendLog (logType : String) (length : Int) (body : Bytes)
  | ack (d : Delivery) (multiple : Bool)
  | reject (d : Delivery) (requeue : Bool)
deriving DecidableEq, Repr

/-- The first loop of `flush`, from index `i` on: `buffer.Write(d.Body)` and,
when `i < maxLen-1`, `buffer.WriteString(",")`. -/
def writeLoop (maxLen : Int) : Nat → List Delivery → Bytes → Bytes
  | _, [], buffer => buffer
  | i, d :: rest, buffer =>
    let buffer := buffer ++ d.Body
    let buffer := if (i : Int) < maxLen - 1 then buffer ++ [44] else buffer
    writeLoop maxLen (i + 1) rest buffer

/-- The bytes `data` that `flush` builds: `[`, the loop, `]`. -/
def flushData (batch : List Delivery) : Bytes :=
  let buffer : Bytes := []
  let buffer := buffer ++ [91]
  let maxLen : Int := batch.length
  let buffer := writeLoop maxLen 0 batch buffer
  buffer ++ [93]

/-- The second loop of `flush`: `d.Reject(true)` when `err != nil`, else
`d.Ack(false)`, for each delivery in turn. -/
def resolveLoop (err : Option GoError) : List Delivery → List Effect
  | [] => []
  | d :: rest =>
    (if err ≠ none then Effect.reject d true else Effect.ack d false) :: resolveLoop err rest

/-- The result of one run of `flush`: its trace and the counters after it. -/
structure FlushResult where
  trace : List Effect
  metrics : Metrics
deriving DecidableEq, Repr

/-- The function `flush`. -/
def flush (lib : Lib) (logShipper : AzureLogShipper) (batch : List Delivery)
    (m : Metrics) : FlushResult :=
  let data := flushData batch
  let maxLen := batch.length
  let length : Int := data.length
  let err := SendLog lib logShipper "DemoExample2" length data
  let trace := [Effect.sendLog "DemoExample2" length data]
  let m := { m with TotalBatchCounter := m.TotalBatchCounter + 1 }
  let m := { m with TotalCounter := m.TotalCounter + maxLen }
  let m :=
    if err ≠ none then
      { m with FailedCounter := m.FailedCounter + maxLen,
               FailedBatchCounter := m.FailedBatchCounter + 1 }
    else
      { m with SuccessCounter := m.SuccessCounter + maxLen,
               SuccessBatchCounter := m.SuccessBatchCounter + 1 }
  { trace := trace ++ resolveLoop err batch, metrics := m }

/-- The struct `Batcher`: `batch` is the open batch, `lastFlush` is `none`
while the pointer is `nil`. The mutex and the shipper pointer carry no data. -/
structure Batcher where
  batch : List Delivery
  batchSize : Int
  flushInterval : Duration
  lastFlush : Option Time
deriving DecidableEq, Repr

/-- The batcher together with what its methods do outside the struct: the
goroutines `go flush(batch, b.logShipper)` started so far, oldest first, each
with the batch it was handed; whether `go batcher.startIntervalFlusher()` was
started; and the counter `FlushCounter`. -/
structure World where
  b : Batcher
  spawned : List (List Delivery)
  flusherStarted : Bool
  FlushCounter : Nat
deriving DecidableEq, Repr

/-- The function `NewBatcher`. The test `flushInterval.Seconds() > 0` holds
exactly when the duration is positive. -/
def NewBatcher (size : Int) (flushInterval : Duration) : World :=
  let batcher : Batcher :=
    { batch := [], batchSize := size, flushInterval := flushInterval, lastFlush := none }
  { b := batcher, spawned := [], flusherStarted := decide (flushInterval > 0),
    FlushCounter := 0 }

/-- The method `Batcher.FlushBatch`; `t` is the value of `time.Now()` in it. -/
def FlushBatch (w : World) (t : Time) : World :=
  let batch := w.b.batch
  { w with
    FlushCounter := w.FlushCounter + 1,
    b := { w.b with batch := [], lastFlush := some t },
    spawned := w.spawned ++ [batch] }

/-- The method `Batcher.AddToBatch`; `t` is the value `time.Now()` has if the
call flushes. -/
def AddToBatch (w : World) (t : Time) (delivery : Delivery) : World :=
  let w := if (w.b.batch.length : Int) ≥ w.b.batchSize then FlushBatch w t else w
  { w with b := { w.b with batch := w.b.batch ++ [delivery] } }

/-- The least `time.Duration`. -/
def minDuration : Duration := -(2 ^ 63)

/-- The greatest `time.Duration`. -/
def maxDuration : Duration := 2 ^ 63 - 1

/-- The method `Time.Sub`: the difference, saturated to the range of
`time.Duration`. -/
def Time.Sub (t u : Time) : Duration :=
  let d := t - u
  if d > maxDuration then maxDuration
  else if d < minDuration then minDuration
  else d

/-- A Go run-time panic. -/
inductive Panic where
  | nilPointerDereference
deriving DecidableEq, Repr

/-- One iteration of the loop of `Batcher.startIntervalFlusher`, after the
timer fired: `now` is the value of `time.Now()` in the check, `t` the value of
the later `time.Now()` inside `FlushBatch`. Reading `*b.lastFlush` while the
pointer is `nil` panics. -/
def intervalTick (w : World) (now t : Time) : Except Panic World :=
  match w.b.lastFlush with
  | none => .error Panic.nilPointerDereference
  | some lastFlush =>
    let flushCheck := decide (Time.Sub now lastFlush > w.b.flushInterval)
    if flushCheck then .ok (FlushBatch w t) else .ok w

/-! ## `rabbit/consumer.go` -/

/-- The loop `for d := range deliveries` of `handle`: each delivery comes with
the time of its `AddToBatch` call; `read` is the consumer counter
`TotalCounter`. -/
def handleLoop : World → Nat → List (Time × Delivery) → World × Nat
  | w, read, [] => (w, read)
  | w, read, (t, d) :: rest => handleLoop (AddToBatch w t d) (read + 1) rest

/-- The state after `handle` returns. -/
structure Handled where
  world : World
  read : Nat
  done : List (Option GoError)
deriving DecidableEq, Repr

/-- The function `handle`, run on a channel that delivers `deliveries` and is
then closed; `tEnd` is the time of the final `FlushBatch`. -/
def handle (w : World) (deliveries : List (Time × Delivery)) (tEnd : Time) : Handled :=
  let (w, read) := handleLoop w 0 deliveries
  let w := FlushBatch w tEnd
  { world := w, read := read, done := [none] }

/-! ## Sample inputs -/

/-- A stand-in for the Go library, for evaluating the definitions on concrete
inputs: requests are the list of what was added to them, the key decoder
accepts every string but `"!"`, the digest is the key followed by the length of
the message, every round trip answers with status `status`. -/
def sampleLib (status : Int) : Lib where
  Req := List (String × String)
  URL := String
  DecodeString := fun s =>
    if s = "!" then .error ⟨"illegal base64 data at input byte 0"⟩ else .ok (s.data.map fun c => UInt8.ofNat c.toNat)
  EncodeToString := fun b => String.mk (b.map fun c => Char.ofNat c.toNat)
  hmacSha256 := fun key msg => key ++ [UInt8.ofNat msg.length]
  NewRequest := fun method url _ => .ok [(method, url)]
  HeaderAdd := fun req k v => req ++ [(k, v)]
  QueryAdd := fun req k v => req ++ [(k, v)]
  Parse := fun s => .ok s
  nowRFC1123 := "Mon, 02 Jan 2006 15:04:05 UTC"
  Replace := fun s _ _ _ => s
  Do := fun _ _ => .ok ⟨status⟩

/-- A sample shipper configuration. -/
def sampleShipper : AzureLogShipper :=
  { WorkspaceID := "ws", SharedKey := "a2V5", HttpProxy := "" }

/-- Sample record `A`. -/
def recA : Delivery := { DeliveryTag := 1, Body := [65] }

/-- Sample record `B`. -/
def recB : Delivery := { DeliveryTag := 2, Body := [66] }

/-- Sample record `C`. -/
def recC : Delivery := { DeliveryTag := 3, Body := [67] }

/-- All counters at zero. -/
def zeroMetrics : Metrics := ⟨0, 0, 0, 0, 0, 0⟩

/-! ## Definitions used to state the claims -/

/-- The payloads joined as the specification words it: `p1 , p2 , ... , pn`,
one separator between neighbours and none after the last. -/
def joinComma : List Bytes → Bytes
  | [] => []
  | [p] => p
  | p :: q :: rest => p ++ [44] ++ joinComma (q :: rest)

/-- The JSON array of the specification: `[`, the joined payloads, `]`. -/
def jsonArray (payloads : List Bytes) : Bytes :=
  [91] ++ joinComma payloads ++ [93]

/-- The sum of the payload lengths. -/
def payloadBytes (payloads : List Bytes) : Nat :=
  (payloads.map List.length).sum

/-- The world after the deliveries `ds` went through `AddToBatch`, one call
each, in order: the loop of `handle`. -/
def feed (w : World) (ds : List (Time × Delivery)) : World :=
  (handleLoop w 0 ds).1

/-- Every record the batcher holds or has handed over, oldest first. -/
def World.content (w : World) : List Delivery :=
  w.spawned.flatten ++ w.b.batch

/-- Whether an effect is a `SendLog` call. -/
def Effect.isSendLog : Effect → Bool
  | .sendLog _ _ _ => true
  | _ => false

/-- Whether an effect is an `Ack` call on the delivery `d`. -/
def Effect.isAckOf (d : Delivery) : Effect → Bool
  | .ack x _ => decide (x = d)
  | _ => false

/-- Whether an effect is a `Reject` call. -/
def Effect.isReject : Effect → Bool
  | .reject _ _ => true
  | _ => false

/-- How many `SendLog` calls a trace holds. -/
def sendLogCalls (tr : List Effect) : Nat :=
  tr.countP Effect.isSendLog

/-- How many `Ack` calls on the delivery `d` a trace holds. -/
def ackCalls (d : Delivery) (tr : List Effect) : Nat :=
  tr.countP (Effect.isAckOf d)

/-- How many `Reject` calls a trace holds. -/
def rejectCalls (tr : List Effect) : Nat :=
  tr.countP Effect.isReject

/-- The bound of the accept step: the open batch holds at most `batchSize`
records and every batch handed over holds exactly `batchSize` records. -/
def World.Bounded (w : World) : Prop :=
  (w.b.batch.length : Int) ≤ w.b.batchSize
    ∧ ∀ batch ∈ w.spawned, (batch.length : Int) = w.b.batchSize

/-- The URL `SendLog` posts to. -/
def azureUrl (a : AzureLogShipper) : String :=
  "https://" ++ a.WorkspaceID ++ ".ods.opinsights.azure.com/api/logs"

/-- The date header `SendLog` computes. -/
def dateHeader (lib : Lib) : String :=
  lib.Replace lib.nowRFC1123 "UTC" "GMT" 1

/-- The request `SendLog` hands to `client.Do`, built from the request `req`
that `http.NewRequest` returned and the token `authHeader`. -/
def sentRequest (lib : Lib) (logType : String) (req : lib.Req) (authHeader : String) : lib.Req :=
  lib.QueryAdd
    (lib.HeaderAdd
      (lib.HeaderAdd
        (lib.HeaderAdd (lib.HeaderAdd req "Log-Type" logType) "Content-Type" "application/json")
        "x-ms-date" (dateHeader lib))
      "Authorization" authHeader)
    "api-version" "2016-04-01"

/-- The canonical string the signer hashes, as the specification gives it. -/
def canonicalString (n : Int) (d : String) : String :=
  "POST\n" ++ fmtInt n ++ "\napplication/json\nx-ms-date:" ++ d ++ "\n/api/logs"

/-- The token of the specification for a decoded key. -/
def referenceToken (lib : Lib) (w : String) (key : Bytes) (n : Int) (d : String) : String :=
  "SharedKey " ++ w ++ ":" ++ lib.EncodeToString (lib.hmacSha256 key (canonicalString n d))

/-- The client `SendLog` uses: the default client, or the one with the proxy
URL parsed from the fixed literal when `HttpProxy` is set. -/
def clientOf (lib : Lib) (a : AzureLogShipper) : Option lib.URL :=
  if a.HttpProxy ≠ "" then
    match lib.Parse "http://localhost:62269" with
    | .ok proxyURL => some proxyURL
    | .error _ => none
  else none

/-! ## The definitions on sample inputs -/

example : flushData [recA, recB, recC] = [91, 65, 44, 66, 44, 67, 93] := by decide
example : flushData [] = [91, 93] := by decide
example : (handle (NewBatcher 3 0) [(1, recA), (2, recB), (3, recC)] 9).world.spawned
    = [[recA, recB, recC]] := by decide
example : (handle (NewBatcher 2 0) [(1, recA), (2, recB), (3, recC)] 9).world.spawned
    = [[recA, recB], [recC]] := by decide
example : (handle (NewBatcher 0 0) [(1, recA), (2, recB)] 9).world.spawned
    = [[], [recA], [recB]] := by decide
example : (flush (sampleLib 200) sampleShipper [recA, recB] zeroMetrics).trace
    = [Effect.sendLog "DemoExample2" 5 [91, 65, 44, 66, 93],
       Effect.ack recA false, Effect.ack recB false] := by
  simp [flush, SendLog, createAuthHeader, sampleLib, sampleShipper, resolveLoop, flushData,
    writeLoop, recA, recB]
example : intervalTick (NewBatcher 500 1) 5 6 = .error Panic.nilPointerDereference := rfl

/-! ## The body of a batch -/

theorem writeLoop_cons (maxLen : Int) (i : Nat) (d : Delivery) (rest : List Delivery)
    (buffer : Bytes) :
    writeLoop maxLen i (d :: rest) buffer
      = writeLoop maxLen (i + 1) rest
          (if (i : Int) < maxLen - 1 then buffer ++ d.Body ++ [44] else buffer ++ d.Body) := by
  rw [writeLoop]

theorem writeLoop_eq (maxLen : Int) (ds : List Delivery) :
    ∀ (i : Nat) (buffer : Bytes), maxLen = (i : Int) + ds.length →
      writeLoop maxLen i ds buffer = buffer ++ joinComma (ds.map Delivery.Body) := by
  induction ds with
  | nil => intro i buffer _; simp [writeLoop, joinComma]
  | cons d rest ih =>
    intro i buffer h
    cases rest with
    | nil =>
      have hlt : ¬ ((i : Int) < maxLen - 1) := by
        simp only [List.length_cons, List.length_nil] at h; omega
      rw [writeLoop_cons, if_neg hlt]
      simp [writeLoop, joinComma]
    | cons q r =>
      have hlt : (i : Int) < maxLen - 1 := by
        simp only [List.length_cons] at h; push_cast at h; omega
      have hnext : maxLen = ((i + 1 : Nat) : Int) + (q :: r).length := by
        simp only [List.length_cons] at h ⊢; push_cast at h ⊢; omega
      have := ih (i + 1) (buffer ++ d.Body ++ [44]) hnext
      rw [writeLoop_cons, if_pos hlt, this]
      simp [joinComma, List.append_assoc]

theorem flushData_eq (batch : List Delivery) :
    flushData batch = jsonArray (batch.map Delivery.Body) := by
  unfold flushData jsonArray
  simp only [List.nil_append]
  rw [writeLoop_eq _ batch 0 [91] (by simp)]

theorem joinComma_length : ∀ payloads : List Bytes,
    (joinComma payloads).length = payloadBytes payloads + (payloads.length - 1)
  | [] => by simp [joinComma, payloadBytes]
  | [p] => by simp [joinComma, payloadBytes]
  | p :: q :: rest => by
    have ih := joinComma_length (q :: rest)
    simp only [joinComma, List.length_append, ih, payloadBytes, List.map_cons, List.sum_cons,
      List.length_cons, List.length_nil]
    omega

theorem resolveLoop_eq (err : Option GoError) (batch : List Delivery) :
    resolveLoop err batch
      = batch.map fun d => if err ≠ none then Effect.reject d true else Effect.ack d false := by
  induction batch with
  | nil => rfl
  | cons d rest ih => simp [resolveLoop, ih]

theorem flush_trace (lib : Lib) (a : AzureLogShipper) (batch : List Delivery) (m : Metrics) :
    (flush lib a batch m).trace
      = Effect.sendLog "DemoExample2" (flushData batch).length (flushData batch)
        :: resolveLoop
            (SendLog lib a "DemoExample2" (flushData batch).length (flushData batch)) batch := by
  simp [flush]

theorem flush_TotalBatchCounter (lib : Lib) (a : AzureLogShipper) (batch : List Delivery)
    (m : Metrics) :
    (flush lib a batch m).metrics.TotalBatchCounter = m.TotalBatchCounter + 1 := by
  simp only [flush]
  split <;> rfl

theorem flush_TotalCounter (lib : Lib) (a : AzureLogShipper) (batch : List Delivery)
    (m : Metrics) :
    (flush lib a batch m).metrics.TotalCounter = m.TotalCounter + batch.length := by
  simp only [flush]
  split <;> rfl

/-! ## Claims on `flush` -/

/-- C3. For every batch, the body that `flush` passes to `SendLog` is the JSON
array of the payloads in batch order (`[`, payloads separated by single commas,
`]`; `[]` for the empty batch), the length argument is the byte length of that
body, and this length is 2 plus the payload bytes plus `n - 1` separators
(none for `n = 0`). -/
theorem C3_body_serialization (lib : Lib) (a : AzureLogShipper) (batch : List Delivery)
    (m : Metrics) :
    (flush lib a batch m).trace.head?
        = some (Effect.sendLog "DemoExample2"
            (jsonArray (batch.map Delivery.Body)).length (jsonArray (batch.map Delivery.Body)))
      ∧ (flush lib a batch m).trace.tail
          = resolveLoop (SendLog lib a "DemoExample2"
              (jsonArray (batch.map Delivery.Body)).length
              (jsonArray (batch.map Delivery.Body))) batch
      ∧ (jsonArray (batch.map Delivery.Body)).length
          = 2 + payloadBytes (batch.map Delivery.Body) + (batch.length - 1)
      ∧ jsonArray [] = [91, 93] := by
  refine ⟨?_, ?_, ?_, rfl⟩
  · rw [flush_trace, flushData_eq]; rfl
  · rw [flush_trace, flushData_eq]; rfl
  · simp only [jsonArray, List.length_append, joinComma_length, List.length_map,
      List.length_cons, List.length_nil]
    omega

/-- C2. For every batch and every result of `SendLog`, `flush` applies one
terminal disposition to each record, in batch order: when `SendLog` returns
`nil` the dispositions are `Ack(false)` for every record and there is no
`Reject`; when it returns an error they are `Reject(true)` for every record
and there is no `Ack`. In both cases there is exactly one disposition per
record of the batch. -/
theorem C2_outcome_resolution (lib : Lib) (a : AzureLogShipper) (batch : List Delivery)
    (m : Metrics) :
    (SendLog lib a "DemoExample2" (flushData batch).length (flushData batch) = none →
        (flush lib a batch m).trace.tail = batch.map (fun d => Effect.ack d false)
        ∧ ∀ d r, Effect.reject d r ∉ (flush lib a batch m).trace)
      ∧ (∀ e, SendLog lib a "DemoExample2" (flushData batch).length (flushData batch) = some e →
          (flush lib a batch m).trace.tail = batch.map (fun d => Effect.reject d true)
          ∧ ∀ d r, Effect.ack d r ∉ (flush lib a batch m).trace)
      ∧ (flush lib a batch m).trace.tail.length = batch.length := by
  rw [flush_trace]
  refine ⟨?_, ?_, ?_⟩
  · intro h
    simp [h, resolveLoop_eq]
  · intro e h
    simp [h, resolveLoop_eq]
  · simp [resolveLoop_eq]

/-- C2, at a concrete input: records `A`, `B` with a round trip answering 200,
and the same records with a round trip answering 500. -/
theorem C2_outcome_resolution_witness :
    (flush (sampleLib 200) sampleShipper [recA, recB] zeroMetrics).trace.tail
        = [Effect.ack recA false, Effect.ack recB false]
      ∧ (flush (sampleLib 500) sampleShipper [recA, recB] zeroMetrics).trace.tail
        = [Effect.reject recA true, Effect.reject recB true] :=
  ⟨((C2_outcome_resolution (sampleLib 200) sampleShipper [recA, recB] zeroMetrics).1
      (by simp [SendLog, createAuthHeader, sampleLib, sampleShipper])).1,
   ((C2_outcome_resolution (sampleLib 500) sampleShipper [recA, recB] zeroMetrics).2.1
      (statusError 500)
      (by simp [SendLog, createAuthHeader, sampleLib, sampleShipper])).1⟩

/-! ## Runs of the source loop -/

theorem handleLoop_fst (ds : List (Time × Delivery)) :
    ∀ (w : World) (r : Nat), (handleLoop w r ds).1 = (handleLoop w 0 ds).1 := by
  induction ds with
  | nil => intro w r; rfl
  | cons td rest ih =>
    intro w r
    obtain ⟨t, d⟩ := td
    simp only [handleLoop]
    rw [ih _ (r + 1), ih _ (0 + 1)]

theorem handleLoop_snd (ds : List (Time × Delivery)) :
    ∀ (w : World) (r : Nat), (handleLoop w r ds).2 = r + ds.length := by
  induction ds with
  | nil => intro w r; rfl
  | cons td rest ih =>
    intro w r
    obtain ⟨t, d⟩ := td
    simp only [handleLoop, ih, List.length_cons]
    omega

theorem feed_nil (w : World) : feed w [] = w := rfl

theorem feed_cons (w : World) (t : Time) (d : Delivery) (rest : List (Time × Delivery)) :
    feed w ((t, d) :: rest) = feed (AddToBatch w t d) rest := by
  simp only [feed, handleLoop]
  exact handleLoop_fst rest _ _

theorem feed_append (ds : List (Time × Delivery)) :
    ∀ (w : World) (es : List (Time × Delivery)), feed w (ds ++ es) = feed (feed w ds) es := by
  induction ds with
  | nil => intro w es; rfl
  | cons td rest ih =>
    intro w es
    obtain ⟨t, d⟩ := td
    simp only [List.cons_append, feed_cons, ih]

theorem feed_snoc (w : World) (ds : List (Time × Delivery)) (t : Time) (d : Delivery) :
    feed w (ds ++ [(t, d)]) = AddToBatch (feed w ds) t d := by
  rw [feed_append, feed_cons, feed_nil]

theorem FlushBatch_content (w : World) (t : Time) :
    (FlushBatch w t).content = w.content := by
  simp [FlushBatch, World.content]

theorem AddToBatch_content (w : World) (t : Time) (d : Delivery) :
    (AddToBatch w t d).content = w.content ++ [d] := by
  unfold AddToBatch
  split
  · have := FlushBatch_content w t
    simp only [World.content] at this ⊢
    simp only [← List.append_assoc, this]
  · simp [World.content]

theorem feed_content (ds : List (Time × Delivery)) :
    ∀ w : World, (feed w ds).content = w.content ++ ds.map Prod.snd := by
  induction ds with
  | nil => intro w; simp [feed_nil]
  | cons td rest ih =>
    intro w
    obtain ⟨t, d⟩ := td
    rw [feed_cons, ih, AddToBatch_content]
    simp

theorem AddToBatch_batchSize (w : World) (t : Time) (d : Delivery) :
    (AddToBatch w t d).b.batchSize = w.b.batchSize := by
  unfold AddToBatch
  split <;> simp [FlushBatch]

theorem feed_batchSize (ds : List (Time × Delivery)) :
    ∀ w : World, (feed w ds).b.batchSize = w.b.batchSize := by
  induction ds with
  | nil => intro w; rfl
  | cons td rest ih =>
    intro w
    obtain ⟨t, d⟩ := td
    rw [feed_cons, ih, AddToBatch_batchSize]

/-! ## Claims on the accept and flush steps -/

/-- C1. For every threshold and interval and every finite sequence of records
fed one at a time through `AddToBatch` to a fresh batcher and followed by the
final `FlushBatch` of `handle`, the batches handed to `flush`, concatenated in
dispatch order, are exactly the accepted records in order; the number of
records dispatched is the number accepted (and the number read); the open
batch is empty at the end and `handle` reports completion once. -/
theorem C1_no_loss_no_duplication (size : Int) (flushInterval : Duration)
    (deliveries : List (Time × Delivery)) (tEnd : Time) :
    (handle (NewBatcher size flushInterval) deliveries tEnd).world.spawned.flatten
        = deliveries.map Prod.snd
      ∧ ((handle (NewBatcher size flushInterval) deliveries tEnd).world.spawned.map
          List.length).sum = deliveries.length
      ∧ (handle (NewBatcher size flushInterval) deliveries tEnd).read = deliveries.length
      ∧ (handle (NewBatcher size flushInterval) deliveries tEnd).world.b.batch = []
      ∧ (handle (NewBatcher size flushInterval) deliveries tEnd).done = [none] := by
  have hw : (handle (NewBatcher size flushInterval) deliveries tEnd).world
      = FlushBatch (feed (NewBatcher size flushInterval) deliveries) tEnd := rfl
  have hflat : (FlushBatch (feed (NewBatcher size flushInterval) deliveries) tEnd).spawned.flatten
      = deliveries.map Prod.snd := by
    have h1 := FlushBatch_content (feed (NewBatcher size flushInterval) deliveries) tEnd
    rw [feed_content] at h1
    simpa [World.content, FlushBatch, NewBatcher] using h1
  refine ⟨by rw [hw, hflat], ?_, ?_, ?_, rfl⟩
  · rw [hw, ← List.length_flatten, hflat, List.length_map]
  · show (handleLoop (NewBatcher size flushInterval) 0 deliveries).2 = deliveries.length
    rw [handleLoop_snd]; simp
  · rw [hw]; rfl

theorem NewBatcher_bounded (size : Int) (flushInterval : Duration) (h : 1 ≤ size) :
    (NewBatcher size flushInterval).Bounded := by
  constructor
  · simp only [NewBatcher, List.length_nil]; omega
  · intro batch hb; simp [NewBatcher] at hb

theorem AddToBatch_bounded (w : World) (t : Time) (d : Delivery) (h : 1 ≤ w.b.batchSize)
    (hw : w.Bounded) :
    (AddToBatch w t d).Bounded ∧ 1 ≤ (AddToBatch w t d).b.batch.length := by
  obtain ⟨hlen, hsp⟩ := hw
  unfold AddToBatch World.Bounded
  split
  · rename_i hge
    refine ⟨⟨?_, ?_⟩, ?_⟩
    · simp only [FlushBatch, List.nil_append, List.length_cons, List.length_nil]; omega
    · intro batch hb
      simp only [FlushBatch, List.mem_append, List.mem_singleton] at hb ⊢
      rcases hb with hb | hb
      · exact hsp batch hb
      · subst hb; omega
    · simp [FlushBatch]
  · rename_i hlt
    refine ⟨⟨?_, hsp⟩, ?_⟩
    · simp only [List.length_append, List.length_cons, List.length_nil]; push_cast; omega
    · simp

theorem feed_bounded (ds : List (Time × Delivery)) :
    ∀ w : World, 1 ≤ w.b.batchSize → w.Bounded → (feed w ds).Bounded := by
  induction ds with
  | nil => intro w _ hw; exact hw
  | cons td rest ih =>
    intro w h hw
    obtain ⟨t, d⟩ := td
    rw [feed_cons]
    exact ih _ (by rw [AddToBatch_batchSize]; exact h) (AddToBatch_bounded w t d h hw).1

/-- C10. For every threshold `batchSize >= 1` and every nonempty sequence of
`AddToBatch` calls made one after the other on a fresh batcher (so: after each
call), the open batch holds at least 1 and at most `batchSize` records and
every batch handed over by a size-triggered flush holds exactly `batchSize`
records. Each call flushes exactly when the open batch already holds at least
`batchSize` records before the append, and then the new open batch holds only
the new record. -/
theorem C10_batch_size_bound (size : Int) (flushInterval : Duration) (hsize : 1 ≤ size)
    (calls : List (Time × Delivery)) (t : Time) (d : Delivery) :
    1 ≤ (feed (NewBatcher size flushInterval) (calls ++ [(t, d)])).b.batch.length
      ∧ ((feed (NewBatcher size flushInterval) (calls ++ [(t, d)])).b.batch.length : Int) ≤ size
      ∧ (∀ batch ∈ (feed (NewBatcher size flushInterval) (calls ++ [(t, d)])).spawned,
          (batch.length : Int) = size)
      ∧ ((feed (NewBatcher size flushInterval) (calls ++ [(t, d)])).FlushCounter
          = (feed (NewBatcher size flushInterval) calls).FlushCounter
            + (if size ≤ ((feed (NewBatcher size flushInterval) calls).b.batch.length : Int)
                then 1 else 0))
      ∧ (size ≤ ((feed (NewBatcher size flushInterval) calls).b.batch.length : Int) →
          (feed (NewBatcher size flushInterval) (calls ++ [(t, d)])).b.batch = [d]) := by
  have hbs : (feed (NewBatcher size flushInterval) calls).b.batchSize = size := by
    rw [feed_batchSize]; rfl
  have hb := feed_bounded calls (NewBatcher size flushInterval) hsize
    (NewBatcher_bounded size flushInterval hsize)
  have hstep := AddToBatch_bounded (feed (NewBatcher size flushInterval) calls) t d
    (by rw [hbs]; exact hsize) hb
  rw [feed_snoc]
  have hbs2 : (AddToBatch (feed (NewBatcher size flushInterval) calls) t d).b.batchSize = size := by
    rw [AddToBatch_batchSize, hbs]
  obtain ⟨⟨h1, h2⟩, h3⟩ := hstep
  rw [hbs2] at h1 h2
  refine ⟨h3, h1, h2, ?_, ?_⟩
  · unfold AddToBatch
    rw [hbs]
    by_cases hc : size ≤ ((feed (NewBatcher size flushInterval) calls).b.batch.length : Int)
    · simp [hc, FlushBatch]
    · simp [hc]
  · intro hc
    unfold AddToBatch
    rw [hbs]
    simp [hc, FlushBatch]

/-- C10, at a concrete input: threshold 2, the calls for `A`, `B` and then `C`. -/
theorem C10_batch_size_bound_witness :
    1 ≤ (feed (NewBatcher 2 0) ([(1, recA), (2, recB)] ++ [(3, recC)])).b.batch.length
      ∧ ((feed (NewBatcher 2 0) ([(1, recA), (2, recB)] ++ [(3, recC)])).b.batch.length : Int) ≤ 2
      ∧ (∀ batch ∈ (feed (NewBatcher 2 0) ([(1, recA), (2, recB)] ++ [(3, recC)])).spawned,
          (batch.length : Int) = 2) :=
  have h := C10_batch_size_bound 2 0 (by decide) [(1, recA), (2, recB)] 3 recC
  ⟨h.1, h.2.1, h.2.2.1⟩

theorem AddToBatch_below (w : World) (t : Time) (d : Delivery)
    (h : (w.b.batch.length : Int) < w.b.batchSize) :
    AddToBatch w t d = { w with b := { w.b with batch := w.b.batch ++ [d] } } := by
  unfold AddToBatch
  rw [if_neg (by omega)]

theorem AddToBatch_reached (w : World) (t : Time) (d : Delivery)
    (h : w.b.batchSize ≤ (w.b.batch.length : Int)) :
    AddToBatch w t d
      = { w with
          FlushCounter := w.FlushCounter + 1
          b := { w.b with batch := [d], lastFlush := some t }
          spawned := w.spawned ++ [w.b.batch] } := by
  unfold AddToBatch
  rw [if_pos (by omega)]
  simp [FlushBatch]

theorem feed_below (ds : List (Time × Delivery)) :
    ∀ w : World, (w.b.batch.length : Int) + ds.length ≤ w.b.batchSize →
      feed w ds = { w with b := { w.b with batch := w.b.batch ++ ds.map Prod.snd } } := by
  induction ds with
  | nil => intro w _; simp [feed_nil]
  | cons td rest ih =>
    intro w h
    obtain ⟨t, d⟩ := td
    simp only [List.length_cons] at h
    push_cast at h
    rw [feed_cons, AddToBatch_below w t d (by omega), ih]
    · simp
    · simp only [List.length_append, List.length_cons, List.length_nil]
      push_cast
      omega

theorem sendLogCalls_resolveLoop (err : Option GoError) (batch : List Delivery) :
    sendLogCalls (resolveLoop err batch) = 0 := by
  induction batch with
  | nil => rfl
  | cons d rest ih =>
    simp only [sendLogCalls] at ih ⊢
    rw [resolveLoop, List.countP_cons, ih]
    by_cases he : err = none <;> simp [he, Effect.isSendLog]

theorem rejectCalls_resolveLoop_nil (batch : List Delivery) :
    rejectCalls (resolveLoop none batch) = 0 := by
  induction batch with
  | nil => rfl
  | cons d rest ih =>
    simp only [rejectCalls] at ih ⊢
    rw [resolveLoop, List.countP_cons, ih]
    simp [Effect.isReject]

theorem ackCalls_resolveLoop_nil (x : Delivery) (batch : List Delivery) :
    ackCalls x (resolveLoop none batch) = batch.count x := by
  induction batch with
  | nil => rfl
  | cons d rest ih =>
    simp only [ackCalls] at ih ⊢
    rw [resolveLoop, List.countP_cons, ih, List.count_cons]
    by_cases hx : d = x <;> simp [hx, Effect.isAckOf]

/-- C4, as the code has it. A fresh batcher with threshold `n` that accepts
`n` records in order triggers no flush in any of these `n` calls of
`AddToBatch`: after each of them nothing was handed over, and after the last
the open batch holds the `n` records in order. The next call of `AddToBatch`
triggers exactly one flush, which hands over exactly those `n` records in
order and leaves the new record alone in the open batch. When `SendLog`
succeeds on that batch, `flush` makes one `SendLog` call, acknowledges each
record once per occurrence with `Ack(false)`, rejects none, and counts one
batch sent. -/
theorem C4_size_threshold_flush (size : Int) (flushInterval : Duration)
    (ds : List (Time × Delivery)) (hlen : (ds.length : Int) = size)
    (t : Time) (d : Delivery) (lib : Lib) (a : AzureLogShipper) (m : Metrics)
    (hsend : SendLog lib a "DemoExample2" (flushData (ds.map Prod.snd)).length
      (flushData (ds.map Prod.snd)) = none) :
    (∀ k, (feed (NewBatcher size flushInterval) (ds.take k)).FlushCounter = 0
        ∧ (feed (NewBatcher size flushInterval) (ds.take k)).spawned = [])
      ∧ (feed (NewBatcher size flushInterval) ds).b.batch = ds.map Prod.snd
      ∧ (AddToBatch (feed (NewBatcher size flushInterval) ds) t d).FlushCounter = 1
      ∧ (AddToBatch (feed (NewBatcher size flushInterval) ds) t d).spawned = [ds.map Prod.snd]
      ∧ (AddToBatch (feed (NewBatcher size flushInterval) ds) t d).b.batch = [d]
      ∧ sendLogCalls (flush lib a (ds.map Prod.snd) m).trace = 1
      ∧ (flush lib a (ds.map Prod.snd) m).trace.tail
          = (ds.map Prod.snd).map (fun x => Effect.ack x false)
      ∧ (∀ x, ackCalls x (flush lib a (ds.map Prod.snd) m).trace = (ds.map Prod.snd).count x)
      ∧ rejectCalls (flush lib a (ds.map Prod.snd) m).trace = 0
      ∧ (flush lib a (ds.map Prod.snd) m).metrics.TotalBatchCounter = m.TotalBatchCounter + 1 := by
  have hfeed : ∀ es : List (Time × Delivery), (es.length : Int) ≤ size →
      feed (NewBatcher size flushInterval) es
        = { NewBatcher size flushInterval with
            b := { (NewBatcher size flushInterval).b with batch := es.map Prod.snd } } := by
    intro es hes
    rw [feed_below es (NewBatcher size flushInterval) (by simpa [NewBatcher] using hes)]
    simp [NewBatcher]
  have hall := hfeed ds (by omega)
  have hnext := AddToBatch_reached (feed (NewBatcher size flushInterval) ds) t d
    (by rw [hall]; simp [NewBatcher]; omega)
  refine ⟨?_, ?_, ?_, ?_, ?_, ?_, ?_, ?_, ?_, ?_⟩
  · intro k
    have hk : ((ds.take k).length : Int) ≤ size := by
      have : (ds.take k).length ≤ ds.length := by simp [List.length_take]
      omega
    rw [hfeed _ hk]
    exact ⟨rfl, rfl⟩
  · rw [hall]
  · rw [hnext, hall]; rfl
  · rw [hnext, hall]; rfl
  · rw [hnext]
  · rw [flush_trace, hsend]
    have := sendLogCalls_resolveLoop none (ds.map Prod.snd)
    simp only [sendLogCalls] at this ⊢
    rw [List.countP_cons, this]
    simp [Effect.isSendLog]
  · rw [flush_trace, hsend, resolveLoop_eq]; simp
  · intro x
    rw [flush_trace, hsend, ← ackCalls_resolveLoop_nil]
    simp only [ackCalls]
    rw [List.countP_cons]
    simp [Effect.isAckOf]
  · rw [flush_trace, hsend]
    have := rejectCalls_resolveLoop_nil (ds.map Prod.snd)
    simp only [rejectCalls] at this ⊢
    rw [List.countP_cons, this]
    simp [Effect.isReject]
  · exact flush_TotalBatchCounter lib a _ m

/-- C4, at the input of the specification: threshold 3 and the records `A`,
`B`, `C`, then a fourth record, with a round trip answering 200. -/
theorem C4_size_threshold_flush_witness :
    (feed (NewBatcher 3 60) [(1, recA), (2, recB), (3, recC)]).b.batch = [recA, recB, recC]
      ∧ (AddToBatch (feed (NewBatcher 3 60) [(1, recA), (2, recB), (3, recC)]) 4 recA).spawned
          = [[recA, recB, recC]]
      ∧ sendLogCalls (flush (sampleLib 200) sampleShipper [recA, recB, recC] zeroMetrics).trace = 1
      ∧ rejectCalls (flush (sampleLib 200) sampleShipper [recA, recB, recC] zeroMetrics).trace = 0 :=
  have h := C4_size_threshold_flush 3 60 [(1, recA), (2, recB), (3, recC)] (by decide) 4 recA
    (sampleLib 200) sampleShipper zeroMetrics
    (by simp [SendLog, createAuthHeader, sampleLib, sampleShipper])
  ⟨h.2.1, h.2.2.2.1, h.2.2.2.2.2.1, h.2.2.2.2.2.2.2.2.1⟩

/-- C4 fails as stated. Threshold 3, records `A`, `B`, `C`: the third
`AddToBatch` call triggers no flush (the flush counter does not move and no
batch is handed over), so it is not the case that one flush carrying `A`,
`B`, `C` is triggered on the third accept. -/
theorem C4_counterexample :
    ¬ ((feed (NewBatcher 3 60) [(1, recA), (2, recB), (3, recC)]).FlushCounter
        = (feed (NewBatcher 3 60) [(1, recA), (2, recB)]).FlushCounter + 1)
      ∧ (feed (NewBatcher 3 60) [(1, recA), (2, recB), (3, recC)]).FlushCounter = 0
      ∧ (feed (NewBatcher 3 60) [(1, recA), (2, recB), (3, recC)]).spawned = []
      ∧ ¬ ((feed (NewBatcher 3 60) [(1, recA), (2, recB), (3, recC)]).spawned
            = [[recA, recB, recC]]) := by
  decide

/-- C5, as the code has it. When `FlushBatch` is called while the open batch
holds no record, it hands the empty batch to `flush` and the open batch stays
empty; `flush` on the empty batch does not short-circuit: it calls `SendLog`
exactly once, with the body `[]` and the length 2, and counts one batch sent
and no record; it acknowledges and rejects nothing. -/
theorem C5_empty_flush (w : World) (t : Time) (lib : Lib) (a : AzureLogShipper) (m : Metrics)
    (hempty : w.b.batch = []) :
    (FlushBatch w t).spawned = w.spawned ++ [[]]
      ∧ (FlushBatch w t).b.batch = []
      ∧ (flush lib a [] m).trace = [Effect.sendLog "DemoExample2" 2 [91, 93]]
      ∧ sendLogCalls (flush lib a [] m).trace = 1
      ∧ (∀ d, ackCalls d (flush lib a [] m).trace = 0)
      ∧ rejectCalls (flush lib a [] m).trace = 0
      ∧ (flush lib a [] m).metrics.TotalBatchCounter = m.TotalBatchCounter + 1
      ∧ (flush lib a [] m).metrics.TotalCounter = m.TotalCounter := by
  have htrace : (flush lib a [] m).trace = [Effect.sendLog "DemoExample2" 2 [91, 93]] := by
    rw [flush_trace]; rfl
  refine ⟨?_, rfl, htrace, ?_, ?_, ?_, ?_, ?_⟩
  · simp [FlushBatch, hempty]
  · rw [htrace]; rfl
  · intro d; rw [htrace]; rfl
  · rw [htrace]; rfl
  · exact flush_TotalBatchCounter lib a [] m
  · exact flush_TotalCounter lib a [] m

/-- C5, at a concrete input: the final `FlushBatch` of a run without records. -/
theorem C5_empty_flush_witness :
    (FlushBatch (NewBatcher 500 60) 7).spawned = [[]]
      ∧ (flush (sampleLib 200) sampleShipper [] zeroMetrics).trace
          = [Effect.sendLog "DemoExample2" 2 [91, 93]] :=
  have h := C5_empty_flush (NewBatcher 500 60) 7 (sampleLib 200) sampleShipper zeroMetrics rfl
  ⟨h.1, h.2.2.1⟩

/-- C5 fails as stated. `FlushBatch` on a fresh batcher (empty open batch)
hands the empty batch to `flush`, and `flush` on it makes a `SendLog` call and
counts a batch as sent: the number of `SendLog` calls is not zero. -/
theorem C5_counterexample :
    (FlushBatch (NewBatcher 500 60) 7).spawned = [[]]
      ∧ ¬ (sendLogCalls (flush (sampleLib 200) sampleShipper [] zeroMetrics).trace = 0)
      ∧ ¬ ((flush (sampleLib 200) sampleShipper [] zeroMetrics).metrics.TotalBatchCounter
            = zeroMetrics.TotalBatchCounter) := by
  refine ⟨rfl, ?_, ?_⟩
  · rw [flush_trace]; decide
  · rw [flush_TotalBatchCounter]; decide

/-! ## Claims on the shipper and the signer -/

/-- C7. For every workspace id, shared key, content length and date string,
`createAuthHeader` returns an error exactly when the base64 decoder rejects the
shared key (and then it is the decoder's error); otherwise it returns exactly
`SharedKey w:` followed by the base64 encoding of the HMAC-SHA256, under the
decoded key, of the canonical string for the length in decimal and the date.
The result depends on the shipper only through the workspace id and the shared
key. -/
theorem C7_signer_reference (lib : Lib) (a : AzureLogShipper) (n : Int) (d : String) :
    ((∃ e, createAuthHeader lib a n d = .error e) ↔ (∃ e, lib.DecodeString a.SharedKey = .error e))
      ∧ (∀ e, lib.DecodeString a.SharedKey = .error e → createAuthHeader lib a n d = .error e)
      ∧ (∀ key, lib.DecodeString a.SharedKey = .ok key →
          createAuthHeader lib a n d = .ok (referenceToken lib a.WorkspaceID key n d))
      ∧ (∀ proxy, createAuthHeader lib { a with HttpProxy := proxy } n d
          = createAuthHeader lib a n d) := by
  refine ⟨?_, ?_, ?_, ?_⟩
  · unfold createAuthHeader
    cases h : lib.DecodeString a.SharedKey with
    | error e => simp
    | ok key => simp
  · intro e h
    simp [createAuthHeader, h]
  · intro key h
    simp [createAuthHeader, h, referenceToken, canonicalString]
  · intro proxy
    rfl

/-- C7, at a concrete input: a key the decoder accepts and one it rejects. -/
theorem C7_signer_reference_witness :
    createAuthHeader (sampleLib 200) sampleShipper 5 "Mon, 02 Jan 2006 15:04:05 GMT"
        = .ok (referenceToken (sampleLib 200) "ws" [97, 50, 86, 53] 5
            "Mon, 02 Jan 2006 15:04:05 GMT")
      ∧ createAuthHeader (sampleLib 200) { sampleShipper with SharedKey := "!" } 5 "d"
        = .error ⟨"illegal base64 data at input byte 0"⟩ :=
  ⟨(C7_signer_reference (sampleLib 200) sampleShipper 5 "Mon, 02 Jan 2006 15:04:05 GMT").2.2.1
      [97, 50, 86, 53] rfl,
   (C7_signer_reference (sampleLib 200) { sampleShipper with SharedKey := "!" } 5 "d").2.1
      ⟨"illegal base64 data at input byte 0"⟩ rfl⟩

/-- C6. Let the workspace id be well formed (`http.NewRequest` accepts the
URL built from it) and the shared key be valid base64 (the decoder accepts
it), and let the round trip take place (the fixed proxy literal parses when a
proxy is configured). Then for every outcome of `client.Do` on the request
sent: `SendLog` returns `nil` exactly when the round trip produced a response
with status 200; on a transport failure it returns the underlying error; on a
response with any status `s` other than 200 it returns the error whose message
is `Error sending log file, got status code s`. -/
theorem C6_outcome_classification (lib : Lib) (a : AzureLogShipper) (logType : String)
    (length : Int) (body : Bytes) (req : lib.Req) (key : Bytes)
    (hreq : lib.NewRequest "POST" (azureUrl a) body = .ok req)
    (hkey : lib.DecodeString a.SharedKey = .ok key)
    (hproxy : a.HttpProxy ≠ "" → ∃ u, lib.Parse "http://localhost:62269" = .ok u) :
    (SendLog lib a logType length body = none ↔
        ∃ res, lib.Do (clientOf lib a)
            (sentRequest lib logType req
              (referenceToken lib a.WorkspaceID key length (dateHeader lib))) = .ok res
          ∧ res.StatusCode = 200)
      ∧ (∀ e, lib.Do (clientOf lib a)
            (sentRequest lib logType req
              (referenceToken lib a.WorkspaceID key length (dateHeader lib))) = .error e →
          SendLog lib a logType length body = some e)
      ∧ (∀ res, lib.Do (clientOf lib a)
            (sentRequest lib logType req
              (referenceToken lib a.WorkspaceID key length (dateHeader lib))) = .ok res →
          res.StatusCode ≠ 200 →
          SendLog lib a logType length body = some (statusError res.StatusCode)
            ∧ (statusError res.StatusCode).msg
                = "Error sending log file, got status code " ++ fmtInt res.StatusCode) := by
  have hauth : createAuthHeader lib a length (dateHeader lib)
      = .ok (referenceToken lib a.WorkspaceID key length (dateHeader lib)) := by
    simp [createAuthHeader, hkey, referenceToken, canonicalString]
  have hsend : SendLog lib a logType length body
      = match lib.Do (clientOf lib a)
            (sentRequest lib logType req
              (referenceToken lib a.WorkspaceID key length (dateHeader lib))) with
        | .error err => some err
        | .ok res => if res.StatusCode ≠ 200 then some (statusError res.StatusCode) else none := by
    unfold SendLog
    simp only [azureUrl] at hreq
    simp only [dateHeader] at hauth
    simp only [hreq, hauth]
    by_cases hp : a.HttpProxy = ""
    · simp [hp, clientOf, sentRequest, dateHeader]
    · obtain ⟨u, hu⟩ := hproxy hp
      simp [hp, hu, clientOf, sentRequest, dateHeader]
  rw [hsend]
  refine ⟨?_, ?_, ?_⟩
  · cases hdo : lib.Do (clientOf lib a)
        (sentRequest lib logType req
          (referenceToken lib a.WorkspaceID key length (dateHeader lib))) with
    | error e => simp
    | ok res =>
      by_cases hs : res.StatusCode = 200 <;> simp [hs]
  · intro e he
    simp [he]
  · intro res hres hs
    simp [hres, hs, statusError]

/-- C6, at concrete inputs: round trips answering 200 and 204. -/
theorem C6_outcome_classification_witness :
    SendLog (sampleLib 200) sampleShipper "DemoExample2" 2 [91, 93] = none
      ∧ SendLog (sampleLib 204) sampleShipper "DemoExample2" 2 [91, 93]
          = some ⟨"Error sending log file, got status code 204"⟩ :=
  ⟨(C6_outcome_classification (sampleLib 200) sampleShipper "DemoExample2" 2 [91, 93]
      [("POST", azureUrl sampleShipper)] [97, 50, 86, 53] rfl rfl
      (fun h => absurd rfl h)).1.2 ⟨⟨200⟩, rfl, rfl⟩,
   ((C6_outcome_classification (sampleLib 204) sampleShipper "DemoExample2" 2 [91, 93]
      [("POST", azureUrl sampleShipper)] [97, 50, 86, 53] rfl rfl
      (fun h => absurd rfl h)).2.2 ⟨204⟩ rfl (by decide)).1⟩

/-! ## Claims on the interval flusher -/

theorem Sub_gt_imp (now t0 interval : Int) (hpos : 0 < interval)
    (h : Time.Sub now t0 > interval) : interval < now - t0 := by
  have h' : (if now - t0 > 2 ^ 63 - 1 then (2 ^ 63 - 1 : Int)
      else if now - t0 < -(2 ^ 63) then -(2 ^ 63) else now - t0) > interval := h
  split at h'
  · omega
  · split at h'
    · omega
    · omega

/-- C8. On a timer wake of `startIntervalFlusher` at time `now`, with a
last-flush timestamp `t0` recorded and the positive interval the flusher runs
with, the iteration completes; it either leaves the batcher as it is or calls
`FlushBatch`, and it calls `FlushBatch` only if `now - t0` is at least
`flushInterval`. The timestamp such a flush records (read at a time `t` not
before `now`) is then at least `flushInterval` after `t0`. -/
theorem C8_interval_guard (w : World) (now t t0 : Time)
    (hlast : w.b.lastFlush = some t0) (hpos : 0 < w.b.flushInterval) (hmono : now ≤ t) :
    ∃ w', intervalTick w now t = .ok w'
      ∧ (w' = w ∨ w' = FlushBatch w t)
      ∧ (w'.FlushCounter ≠ w.FlushCounter →
          w' = FlushBatch w t
            ∧ w.b.flushInterval ≤ now - t0
            ∧ w'.b.lastFlush = some t
            ∧ w.b.flushInterval ≤ t - t0) := by
  unfold intervalTick
  rw [hlast]
  by_cases hc : Time.Sub now t0 > w.b.flushInterval
  · refine ⟨FlushBatch w t, by simp [hc], Or.inr rfl, ?_⟩
    intro _
    have hlt : w.b.flushInterval < now - t0 := Sub_gt_imp now t0 w.b.flushInterval hpos hc
    exact ⟨rfl, le_of_lt hlt, rfl,
      le_trans (le_of_lt hlt) (Int.sub_le_sub_right hmono t0)⟩
  · refine ⟨w, by simp [hc], Or.inl rfl, ?_⟩
    intro h
    exact absurd rfl h

/-- C8, at concrete inputs: interval 60, last flush at 100; a wake at 130 does
not flush, a wake at 161 flushes. -/
theorem C8_interval_guard_witness :
    (∃ w', intervalTick (FlushBatch (NewBatcher 500 60) 100) 130 131 = .ok w'
        ∧ w'.FlushCounter = 1)
      ∧ (∃ w', intervalTick (FlushBatch (NewBatcher 500 60) 100) 161 162 = .ok w'
        ∧ w'.FlushCounter = 2 ∧ (60 : Int) ≤ 161 - 100) := by
  obtain ⟨w1, h1, hcase1, _⟩ :=
    C8_interval_guard (FlushBatch (NewBatcher 500 60) 100) 130 131 100 rfl (by decide) (by decide)
  obtain ⟨w2, h2, hcase2, himp2⟩ :=
    C8_interval_guard (FlushBatch (NewBatcher 500 60) 100) 161 162 100 rfl (by decide) (by decide)
  have e1 : intervalTick (FlushBatch (NewBatcher 500 60) 100) 130 131
      = .ok (FlushBatch (NewBatcher 500 60) 100) := by
    simp [intervalTick, FlushBatch, NewBatcher, Time.Sub, maxDuration, minDuration]
  have e2 : intervalTick (FlushBatch (NewBatcher 500 60) 100) 161 162
      = .ok (FlushBatch (FlushBatch (NewBatcher 500 60) 100) 162) := by
    simp [intervalTick, FlushBatch, NewBatcher, Time.Sub, maxDuration, minDuration]
  refine ⟨⟨_, e1, rfl⟩, ⟨w2, h2, ?_, ?_⟩⟩
  · rw [e2] at h2
    cases h2
    rfl
  · rw [e2] at h2
    cases h2
    exact (himp2 (by decide)).2.1

theorem AddToBatch_lastFlush_of_counter (w : World) (t : Time) (d : Delivery)
    (h : (AddToBatch w t d).FlushCounter = w.FlushCounter) :
    (AddToBatch w t d).b.lastFlush = w.b.lastFlush := by
  unfold AddToBatch at h ⊢
  split at h
  · simp [FlushBatch] at h
  · rename_i hlt
    rw [if_neg hlt]

theorem AddToBatch_FlushCounter_le (w : World) (t : Time) (d : Delivery) :
    w.FlushCounter ≤ (AddToBatch w t d).FlushCounter := by
  unfold AddToBatch
  split <;> simp [FlushBatch]

theorem feed_unflushed (ds : List (Time × Delivery)) :
    ∀ w : World, (feed w ds).FlushCounter = 0 →
      w.FlushCounter = 0 ∧ (feed w ds).b.lastFlush = w.b.lastFlush := by
  induction ds with
  | nil => intro w h; exact ⟨h, rfl⟩
  | cons td rest ih =>
    intro w h
    obtain ⟨t, d⟩ := td
    rw [feed_cons] at h ⊢
    obtain ⟨h0, hl⟩ := ih _ h
    have hle := AddToBatch_FlushCounter_le w t d
    have hw : w.FlushCounter = 0 := by omega
    exact ⟨hw, by rw [hl, AddToBatch_lastFlush_of_counter w t d (by omega)]⟩

/-- C9. A batcher returned by `NewBatcher` has no last-flush timestamp; an
`AddToBatch` call that finds the open batch below the threshold leaves the
timestamp as it is, and so does every `AddToBatch` call that does not call
`FlushBatch`, while `FlushBatch` sets it. Hence in every run of `AddToBatch`
calls on a fresh batcher in which no `FlushBatch` happened yet, a timer wake of
`startIntervalFlusher` reads the absent timestamp and panics; with a positive
interval the flusher is running. So it is for batch size 500, two records
accepted, and interval 1. -/
theorem C9_absent_timestamp (size : Int) (flushInterval : Duration)
    (ds : List (Time × Delivery)) (now t : Time) :
    (NewBatcher size flushInterval).b.lastFlush = none
      ∧ (∀ (w : World) (t1 : Time) (d : Delivery), (w.b.batch.length : Int) < w.b.batchSize →
          (AddToBatch w t1 d).b.lastFlush = w.b.lastFlush)
      ∧ (∀ (w : World) (t1 : Time) (d : Delivery),
          (AddToBatch w t1 d).FlushCounter = w.FlushCounter →
          (AddToBatch w t1 d).b.lastFlush = w.b.lastFlush)
      ∧ (∀ (w : World) (t1 : Time), (FlushBatch w t1).b.lastFlush = some t1)
      ∧ ((feed (NewBatcher size flushInterval) ds).FlushCounter = 0 →
          intervalTick (feed (NewBatcher size flushInterval) ds) now t
            = .error Panic.nilPointerDereference)
      ∧ (0 < flushInterval → (NewBatcher size flushInterval).flusherStarted = true)
      ∧ intervalTick (feed (NewBatcher 500 1) [(0, recA), (0, recB)]) now t
          = .error Panic.nilPointerDereference := by
  refine ⟨rfl, ?_, AddToBatch_lastFlush_of_counter, fun _ _ => rfl, ?_, ?_, ?_⟩
  · intro w t1 d h
    rw [AddToBatch_below w t1 d h]
  · intro h
    have hl := (feed_unflushed ds _ h).2
    unfold intervalTick
    rw [hl]
    rfl
  · intro h
    simp [NewBatcher, h]
  · rfl

/-- C9, at the input of the specification: batch size 500, two records
accepted, flush interval 1, the first timer wake at time 1. -/
theorem C9_absent_timestamp_witness :
    (feed (NewBatcher 500 1) [(0, recA), (0, recB)]).FlushCounter = 0
      ∧ (NewBatcher 500 1).flusherStarted = true
      ∧ intervalTick (feed (NewBatcher 500 1) [(0, recA), (0, recB)]) 1 1
          = .error Panic.nilPointerDereference :=
  have h := C9_absent_timestamp 500 1 [(0, recA), (0, recB)] 1 1
  ⟨by decide, h.2.2.2.2.2.1 (by decide), h.2.2.2.2.1 (by decide)⟩

end AzureLogging
